import Mathlib

/-!
Shallow embedding of the 1C OData → CSV exporter (src/main.py) and proofs of
the specification claims about it.

Conventions of the embedding:
* Python dicts are insertion-ordered association lists (`dinsert`, `dget?`,
  `dget`); assignment to an existing key updates the value in place,
  assignment to a fresh key appends at the end, exactly as CPython dicts do.
* XML nodes are modelled structurally: an Atom entry is `Option (List PropChild)`
  (`none` when the entry has no `atom:content/m:properties` subtree); a
  property child carries its local name, its optional `m:type` attribute, its
  optional text content, and its `d:element` children (each with an optional
  `d:СуммаПлатежа` text), which is all the Python code ever reads.
* Python floats are modelled as exact rationals `ℚ`; `float(...)` becomes
  `py_float`, a parser for finite decimal literals (optional surrounding
  whitespace, sign, digits with optional decimal point, optional exponent).
  The special float spellings `inf`/`nan` and digit underscores, and binary
  rounding error, are abstracted away: feed amounts are decimal literals.
* Network and the clock are passed in as explicit parameters (a page server
  function for `fetch_all`, an attempt-outcome function for `http_get`, the
  current UTC minute count for `almaty_now_str`).
-/

set_option maxHeartbeats 1000000

namespace DebtCalc

/-! ## Python dict model -/

/-- Python dict assignment `l[k] = v`: update in place if the key exists,
append at the end otherwise. -/
def dinsert {α : Type} (k : String) (v : α) : List (String × α) → List (String × α)
  | [] => [(k, v)]
  | p :: rest => if p.1 = k then (k, v) :: rest else p :: dinsert k v rest

/-- Python `l.get(k)`: first binding of `k`, if any. -/
def dget? {α : Type} (k : String) : List (String × α) → Option α
  | [] => none
  | p :: rest => if p.1 = k then some p.2 else dget? k rest

/-- Python `l.get(k, d)`. -/
def dget {α : Type} (k : String) (d : α) (l : List (String × α)) : α :=
  (dget? k l).getD d

/-- The keys of a dict, in order. -/
def keys {α : Type} (l : List (String × α)) : List String := l.map Prod.fst

/-! ## XML entry model -/

/-- One `d:element` child of a collection property; the payments code only
reads its `d:СуммаПлатежа` sub-node's text (`none` models an absent sub-node
or a node with null text). -/
structure AmountLine where
  amount? : Option String
deriving DecidableEq, Repr

/-- One property child of an `m:properties` node, as read by `parse_properties`
and `sum_payments_from_lines`. -/
structure PropChild where
  localname : String
  typeAttr : Option String
  text? : Option String
  elements : List AmountLine
deriving DecidableEq, Repr

/-- An Atom `entry` node: `none` when it has no `atom:content/m:properties`
subtree, otherwise the list of property children. -/
abbrev EntryNode := Option (List PropChild)

/-- The result of `parse_properties`: the `(flat, collections)` pair. -/
abbrev RawEntry := List (String × String) × List (String × PropChild)

/-- Python `str.strip()`: remove leading and trailing whitespace. -/
def pytrim (s : String) : String :=
  String.mk (((s.toList.dropWhile Char.isWhitespace).reverse.dropWhile
    Char.isWhitespace).reverse)

/-- Python `text.replace(",", ".")`: replace every comma by a dot. -/
def commaToDot (s : String) : String :=
  String.mk (s.toList.map (fun c => if c = ',' then '.' else c))

/-- Python `s.startswith(p)` on character lists. -/
def startsWithChars : List Char → List Char → Bool
  | _, [] => true
  | [], _ :: _ => false
  | c :: cs, p :: ps => c == p && startsWithChars cs ps

/-- `type_attr.startswith("Collection(")` on the child's `m:type` attribute,
with `""` for an absent attribute, as in `main.py`. -/
def isColl (c : PropChild) : Bool :=
  startsWithChars (c.typeAttr.getD "").toList "Collection(".toList

/-- Embedding of `parse_properties` (src/main.py lines 117–133): split the
property children of an entry into the scalar dict (trimmed text, `""` for
null text) and the collection dict (unparsed node), both keyed by local name;
an entry without a `content/properties` subtree yields two empty dicts. -/
def parse_properties (entry : EntryNode) : RawEntry :=
  match entry with
  | none => ([], [])
  | some children =>
    children.foldl
      (fun acc child =>
        if isColl child then
          (acc.1, dinsert child.localname child acc.2)
        else
          (dinsert child.localname (pytrim (child.text?.getD "")) acc.1, acc.2))
      ([], [])

/-! ## Python `float()` on decimal literals -/

/-- Numeric value of a decimal digit character. -/
def charDigit (c : Char) : Nat := c.toNat - 48

/-- Value of a digit string read in base 10. -/
def digitsToNat (l : List Char) : Nat := l.foldl (fun a c => a * 10 + charDigit c) 0

/-- Nonempty and all decimal digits. -/
def allDigits (l : List Char) : Bool := !l.isEmpty && l.all Char.isDigit

/-- Unsigned mantissa: `digits`, `digits.digits`, `digits.` or `.digits`. -/
def parseMantissa (l : List Char) : Option ℚ :=
  match l.splitOn '.' with
  | [ds] => if allDigits ds then some ((digitsToNat ds : ℚ)) else none
  | [ip, fp] =>
    if (ip.all Char.isDigit && fp.all Char.isDigit) && !(ip.isEmpty && fp.isEmpty) then
      some ((digitsToNat ip : ℚ) + (digitsToNat fp : ℚ) / ((10 : ℚ) ^ fp.length))
    else none
  | _ => none

/-- Optional leading sign in front of a mantissa parser. -/
def parseSigned (f : List Char → Option ℚ) : List Char → Option ℚ
  | '-' :: rest => (f rest).map (fun q => -q)
  | '+' :: rest => f rest
  | l => f l

/-- Exponent part after `e`/`E`: optionally signed digit string. -/
def parseExp : List Char → Option ℤ
  | '-' :: rest => if allDigits rest then some (-(digitsToNat rest : ℤ)) else none
  | '+' :: rest => if allDigits rest then some ((digitsToNat rest : ℤ)) else none
  | l => if allDigits l then some ((digitsToNat l : ℤ)) else none

/-- Model of Python `float(s)` on finite decimal literals: surrounding
whitespace stripped, optional sign, digits with optional decimal point,
optional `e`/`E` exponent; `none` when the text does not parse. -/
def py_float (s : String) : Option ℚ :=
  let l := (pytrim s).toList
  match l.findIdx? (fun c => c == 'e' || c == 'E') with
  | none => parseSigned parseMantissa l
  | some i =>
    match parseSigned parseMantissa (l.take i), parseExp (l.drop (i + 1)) with
    | some m, some e => some (m * (10 : ℚ) ^ e)
    | _, _ => none

/-! ## Payments line summing and `"%.2f"` formatting -/

/-- Embedding of `sum_payments_from_lines` (src/main.py lines 153–165): sum
`float(text.replace(",", "."))` over the `d:element` children whose amount
node is present with nonempty text, skipping any line whose text fails to
parse; `0` for an absent collection. -/
def sum_payments_from_lines (collection_elem : Option PropChild) : ℚ :=
  match collection_elem with
  | none => 0
  | some ce =>
    ce.elements.foldl
      (fun total line =>
        match line.amount? with
        | none => total
        | some t =>
          if t = "" then total
          else
            match py_float (commaToDot t) with
            | some v => total + v
            | none => total)
      0

/-- The decimal digit character for `n % 10`. -/
def digitChar (n : Nat) : Char := Char.ofNat (48 + n % 10)

/-- Two-digit zero-padded decimal rendering (faithful for `n < 100`). -/
def pad2 (n : Nat) : String := String.mk [digitChar (n / 10), digitChar n]

/-- Model of the Python format `f"{q:.2f}"`: round to 2 decimal places and
render with exactly two fractional digits.  (Binary-float rounding detail is
abstracted: the exact rational is rounded, ties away from the floor.) -/
def formatFixed2 (q : ℚ) : String :=
  let n : ℤ := round (q * 100)
  let m : Nat := n.natAbs
  (if n < 0 then "-" else "") ++ toString (m / 100) ++ "." ++ pad2 (m % 100)

/-! ## Column declarations (the `COLUMNS` dict of src/main.py) -/

def COLUMNS_clients : List String :=
  ["Ref_Key", "Code", "Description", "НаименованиеПолное",
   "ИдентификационныйКодЛичности", "КБЕ", "ГоловнойКонтрагент_Key",
   "ОсновнойДоговорКонтрагента_Key", "СтранаРезидентства_Key",
   "DeletionMark", "IsFolder", "Parent_Key"]

def COLUMNS_sales : List String :=
  ["Ref_Key", "Number", "Date", "Posted", "Контрагент_Key",
   "ДоговорКонтрагента_Key", "СуммаДокумента", "ВалютаДокумента_Key",
   "Организация_Key"]

def COLUMNS_returns : List String :=
  ["Ref_Key", "Number", "Date", "Posted", "Контрагент_Key",
   "ДоговорКонтрагента_Key", "СуммаДокумента", "ВалютаДокумента_Key",
   "Организация_Key", "ДокументОснование", "ДокументОснование_Type"]

def COLUMNS_payments : List String :=
  ["Ref_Key", "Number", "Date", "Posted", "Контрагент_Key",
   "ДоговорКонтрагента_Key", "СуммаДокумента", "ВалютаДокумента_Key",
   "Организация_Key", "ВидОперации", "СуммаПлатежа_Итого"]

/-- The `COLUMNS` dict, looked up by entity key. -/
def COLUMNS : String → List String
  | "clients" => COLUMNS_clients
  | "sales" => COLUMNS_sales
  | "returns" => COLUMNS_returns
  | "payments" => COLUMNS_payments
  | _ => []

/-! ## Entity extractors (row building from fetched raw entries)

In `main.py` each `extract_*` first calls `fetch_all` and then builds one row
per raw entry; the embedding takes the fetched raw entries as a parameter and
performs the row building, which is the part the claims are about. -/

/-- Row building of `extract_clients` (src/main.py lines 185–190). -/
def extract_clients (raws : List RawEntry) : List (List (String × String)) :=
  raws.map (fun e => COLUMNS_clients.map (fun k => (k, dget k "" e.1)))

/-- Row building of `extract_sales` (src/main.py lines 192–197). -/
def extract_sales (raws : List RawEntry) : List (List (String × String)) :=
  raws.map (fun e => COLUMNS_sales.map (fun k => (k, dget k "" e.1)))

/-- Row building of `extract_returns` (src/main.py lines 199–204). -/
def extract_returns (raws : List RawEntry) : List (List (String × String)) :=
  raws.map (fun e => COLUMNS_returns.map (fun k => (k, dget k "" e.1)))

/-- The loop body of `extract_payments` (src/main.py lines 206–218) for one
raw entry: project all declared columns except the derived one, sum the
`РасшифровкаПлатежа` lines, backfill `СуммаДокумента` when the header amount
is falsy and the line total truthy, then set the derived column. -/
def extract_payments_row (e : RawEntry) : List (String × String) :=
  let row := (COLUMNS_payments.filter (fun k => k ≠ "СуммаПлатежа_Итого")).map
    (fun k => (k, dget k "" e.1))
  let lines := dget? "РасшифровкаПлатежа" e.2
  let total_lines := sum_payments_from_lines lines
  let row :=
    if total_lines ≠ 0 ∧ dget "СуммаДокумента" "" e.1 = "" then
      dinsert "СуммаДокумента" (formatFixed2 total_lines) row
    else row
  dinsert "СуммаПлатежа_Итого" (formatFixed2 total_lines) row

/-- Row building of `extract_payments` (src/main.py lines 206–218). -/
def extract_payments (raws : List RawEntry) : List (List (String × String)) :=
  raws.map extract_payments_row

/-! ## Pagination (`fetch_all`, src/main.py lines 135–151) -/

def PAGE_SIZE : Nat := 1000

/-- The body of `fetch_all`'s `while True` loop, instrumented with the number
of page requests issued and given explicit fuel for the unbounded loop
(`none` models nontermination from insufficient fuel).  `server skip` is the
entry list parsed from the page fetched at offset `skip`. -/
def fetch_all_aux (server : Nat → List EntryNode) :
    Nat → Nat → List RawEntry → Nat → Option (List RawEntry × Nat)
  | 0, _, _, _ => none
  | fuel + 1, skip, results, reqs =>
    let entries := server skip
    if entries.isEmpty then some (results, reqs + 1)
    else
      let results := results ++ entries.map parse_properties
      if entries.length < PAGE_SIZE then some (results, reqs + 1)
      else fetch_all_aux server fuel (skip + PAGE_SIZE) results (reqs + 1)

/-- Embedding of `fetch_all`: start at offset 0 with no accumulated results. -/
def fetch_all (server : Nat → List EntryNode) (fuel : Nat) :
    Option (List RawEntry × Nat) :=
  fetch_all_aux server fuel 0 [] 0

/-- A well-behaved remote collection: the page at offset `skip` is the slice
`all[skip : skip + PAGE_SIZE]`, which is what OData `$skip`/`$top` return. -/
def mkServer (all : List EntryNode) (skip : Nat) : List EntryNode :=
  (all.drop skip).take PAGE_SIZE

/-! ## CSV writing (`write_csv`, src/main.py lines 171–176) -/

/-- Embedding of `write_csv`: the sequence of CSV records — the header of
column names, then for each row its values in column order with `""` for a
missing key (`csv.DictWriter` with `fieldnames=columns` and `r.get(k, "")`). -/
def write_csv (rows : List (List (String × String))) (columns : List String) :
    List (List String) :=
  columns :: rows.map (fun r => columns.map (fun k => dget k "" r))

/-! ## Marker timestamp (`almaty_now_str`, src/main.py lines 178–181) -/

/-- Civil date (year, month, day) of a day count since 1970-01-01 in the
proleptic Gregorian calendar — the semantics of Python `datetime` date
handling (Howard Hinnant's `civil_from_days`, specialized to nonnegative
day counts). -/
def civilFromDays (days : Nat) : Nat × Nat × Nat :=
  let z := days + 719468
  let era := z / 146097
  let doe := z % 146097
  let yoe := (doe - doe / 1460 + doe / 36524 - doe / 146096) / 365
  let y := yoe + era * 400
  let doy := doe - (365 * yoe + yoe / 4 - yoe / 100)
  let mp := (5 * doy + 2) / 153
  let d := doy - (153 * mp + 2) / 5 + 1
  let m := if mp < 10 then mp + 3 else mp - 9
  (if m ≤ 2 then y + 1 else y, m, d)

/-- Four-digit zero-padded rendering (faithful for `n < 10000`). -/
def pad4 (n : Nat) : String :=
  String.mk [digitChar (n / 1000), digitChar (n / 100), digitChar (n / 10), digitChar n]

/-- The `strftime` `%Y` field: zero-padded to four digits, full width beyond. -/
def yearString (y : Nat) : String := if y < 10000 then pad4 y else toString y

/-- Embedding of `almaty_now_str`: `datetime.now(timezone(timedelta(hours=5)))`
is the current UTC instant shifted by a fixed +5 hours (independent of the
host timezone); `strftime("%d.%m.%Y %H:%M")` renders its civil fields.  The
current UTC instant is passed in as whole minutes since the epoch. -/
def almaty_now_str (nowUtcMin : Nat) : String :=
  let localMin := nowUtcMin + 5 * 60
  let c := civilFromDays (localMin / 1440)
  pad2 c.2.2 ++ "." ++ pad2 c.2.1 ++ "." ++ yearString c.1 ++ " " ++
    pad2 (localMin / 60 % 24) ++ ":" ++ pad2 (localMin % 60)

/-- The shape `DD.MM.YYYY HH:MM`: 16 characters, digits in the field
positions, the literal separators in between. -/
def marker_pattern_ok (s : String) : Bool :=
  match s.toList with
  | [d1, d2, s1, m1, m2, s2, y1, y2, y3, y4, s3, h1, h2, s4, n1, n2] =>
    d1.isDigit && d2.isDigit && s1 == '.' && m1.isDigit && m2.isDigit &&
    s2 == '.' && y1.isDigit && y2.isDigit && y3.isDigit && y4.isDigit &&
    s3 == ' ' && h1.isDigit && h2.isDigit && s4 == ':' && n1.isDigit && n2.isDigit
  | _ => false

/-! ## HTTP retry loop (`http_get`, src/main.py lines 88–111)

One call to `requests.get` is modelled by its outcome: either a response with
a status code, or a raised transport-level exception (timeout, connection
error), identified by a numeric tag.  `att i` is the outcome of the `i`-th
attempt (1-based), and the result is instrumented with the number of backoff
sleeps and of attempts made. -/

def RETRIES : Nat := 3

inductive HttpError where
  /-- `requests.HTTPError` raised by `resp.raise_for_status()`. -/
  | httpStatus (code : Nat)
  /-- A transport-level exception raised by `requests.get` itself. -/
  | transport (id : Nat)
  /-- The fallback `RuntimeError("Unknown HTTP error")`. -/
  | unknown
deriving DecidableEq, Repr

inductive Attempt where
  | response (status : Nat)
  | raises (id : Nat)
deriving DecidableEq, Repr

inductive HttpOutcome where
  /-- The function returns the response (identified by its status code). -/
  | ok (status : Nat)
  /-- The function raises this error. -/
  | error (e : HttpError)
deriving DecidableEq, Repr

structure HttpResult where
  outcome : HttpOutcome
  sleeps : Nat
  attemptsMade : Nat
deriving DecidableEq, Repr

/-- The `for attempt in range(1, RETRIES + 1)` loop of `http_get`: a status
`≥ 500` sleeps and retries recording nothing; otherwise `raise_for_status()`
raises for a status `≥ 400`, and that exception — like a transport
exception — is caught by the broad `except`, recorded as `last_exc`, and
retried after a sleep; a status `< 400` returns the response at once.  After
the loop the recorded `last_exc` is raised if any, else a `RuntimeError`. -/
def http_get_go (att : Nat → Attempt) :
    List Nat → Option HttpError → Nat → Nat → HttpResult
  | [], lastExc, sleeps, made => ⟨.error (lastExc.getD .unknown), sleeps, made⟩
  | i :: rest, lastExc, sleeps, made =>
    match att i with
    | .raises id => http_get_go att rest (some (.transport id)) (sleeps + 1) (made + 1)
    | .response s =>
      if 500 ≤ s then http_get_go att rest lastExc (sleeps + 1) (made + 1)
      else if 400 ≤ s then http_get_go att rest (some (.httpStatus s)) (sleeps + 1) (made + 1)
      else ⟨.ok s, sleeps, made + 1⟩

/-- The attempt numbers `1, …, RETRIES` in order. -/
def attemptList : List Nat := (List.range RETRIES).map (fun i => i + 1)

/-- Embedding of `http_get`. -/
def http_get (att : Nat → Attempt) : HttpResult :=
  http_get_go att attemptList none 0 0

/-- An attempt that returns from the loop: a response with status `< 400`. -/
def isSuccess : Attempt → Bool
  | .response s => decide (s < 400)
  | .raises _ => false

/-- What the `except` block records for one attempt: the transport exception,
or the `HTTPError` for a 4xx status; nothing for a 5xx (handled before
`raise_for_status`) or a success. -/
def attemptExc : Attempt → Option HttpError
  | .raises id => some (.transport id)
  | .response s => if 500 ≤ s then none else if 400 ≤ s then some (.httpStatus s) else none

/-- The error observed on one attempt, in the sense of the specification:
any transport exception, or any HTTP error status (4xx **or** 5xx). -/
def observedError : Attempt → Option HttpError
  | .raises id => some (.transport id)
  | .response s => if 400 ≤ s then some (.httpStatus s) else none

/-- Fold keeping the last `some` produced by `attemptExc` over given attempts. -/
def foldExc (att : Nat → Attempt) (init : Option HttpError) (l : List Nat) :
    Option HttpError :=
  l.foldl (fun acc i => match attemptExc (att i) with | some e => some e | none => acc) init

/-- The value of `last_exc` after a full run of the loop with no success. -/
def lastRecordedExc (att : Nat → Attempt) : Option HttpError :=
  foldExc att none attemptList

/-- The last error observed across the attempts (specification-side notion). -/
def lastObservedError (att : Nat → Attempt) : Option HttpError :=
  attemptList.foldl
    (fun acc i => match observedError (att i) with | some e => some e | none => acc) none

/-! ## Run orchestration (`main`, src/main.py lines 222–252)

Each entity's `{fetch_all → normalize → write}` attempt is modelled by its
result: `Except.ok rows` when it produced rows, `Except.error msg` when any
step raised.  The orchestrator is a fold over the export list that mirrors
the `try`/`except` loop, then the marker / exit decision on `any_ok`. -/

/-- Success test on an attempt result. -/
def exceptOk : Except String (List (List (String × String))) → Bool
  | .ok _ => true
  | .error _ => false

structure RunOutcome where
  /-- Entity CSV files written, in order: name and full CSV record list. -/
  files : List (String × List (List String))
  /-- One report per attempted entity, in order: file name and success flag. -/
  reports : List (String × Bool)
  /-- Content of `last_scrape.csv` when it is written. -/
  marker : Option (List (List String))
  /-- Whether the run ends in `raise SystemExit(...)` (nonzero exit status). -/
  exit_failure : Bool
deriving DecidableEq, Repr

/-- One iteration of the per-entity `try`/`except` loop: on success write the
CSV, report `✅` and set `any_ok`; on an exception report `❌` and continue. -/
def mainStep
    (acc : List (String × List (List String)) × List (String × Bool) × Bool)
    (a : String × String × Except String (List (List (String × String)))) :
    List (String × List (List String)) × List (String × Bool) × Bool :=
  match a.2.2 with
  | .ok rows =>
    (acc.1 ++ [(a.1, write_csv rows (COLUMNS a.2.1))], acc.2.1 ++ [(a.1, true)], true)
  | .error _ => (acc.1, acc.2.1 ++ [(a.1, false)], acc.2.2)

/-- Embedding of `main` after configuration checks: run every export attempt
in order, then write the marker iff `any_ok`, else exit with failure. -/
def mainRun
    (attempts : List (String × String × Except String (List (List (String × String)))))
    (ts : String) : RunOutcome :=
  let r := attempts.foldl mainStep ([], [], false)
  if r.2.2 then
    { files := r.1, reports := r.2.1,
      marker := some (write_csv [[("last_scrape", ts)]] ["last_scrape"]),
      exit_failure := false }
  else
    { files := r.1, reports := r.2.1, marker := none, exit_failure := true }

/-- The `exports` list of `main`, with each entity's attempt result given. -/
def exports (rc rs rr rp : Except String (List (List (String × String)))) :
    List (String × String × Except String (List (List (String × String)))) :=
  [("clients.csv", "clients", rc), ("sales.csv", "sales", rs),
   ("returns.csv", "returns", rr), ("payments.csv", "payments", rp)]

/-! ## Specification-side formulations

These definitions restate, in the specification's terms, values the code
computes by other means; the claim theorems connect the two. -/

/-- Specification-side contribution of one payment line: its amount text with
`","` replaced by `"."` and parsed as a number, with unparseable, absent and
empty amounts contributing `0`. -/
def lineContrib (line : AmountLine) : ℚ :=
  (py_float (commaToDot (line.amount?.getD ""))).getD 0

/-- The line elements of a payments entry's `РасшифровкаПлатежа` collection,
`[]` when that collection property is absent. -/
def payment_lines (e : RawEntry) : List AmountLine :=
  ((dget? "РасшифровкаПлатежа" e.2).map PropChild.elements).getD []

/-- Specification-side derived total of a payments entry: the sum of the
per-line contributions. -/
def specTotal (e : RawEntry) : ℚ := ((payment_lines e).map lineContrib).sum

/-- The payment line collection of the specification's worked example:
amounts `"10,50"`, `"5.25"`, and the unparseable `"abc"`. -/
def exampleLines : PropChild :=
  ⟨"РасшифровкаПлатежа", some "Collection(StandardODATA.LineRow)", none,
   [⟨some "10,50"⟩, ⟨some "5.25"⟩, ⟨some "abc"⟩]⟩

/-- A payments raw entry holding `exampleLines` and an empty header. -/
def exampleEntry : RawEntry := ([], [("РасшифровкаПлатежа", exampleLines)])

/-! ## Helper lemmas about the dict model -/

theorem dget?_dinsert_self {α : Type} (k : String) (v : α) (l : List (String × α)) :
    dget? k (dinsert k v l) = some v := by
  induction l with
  | nil => simp [dinsert, dget?]
  | cons p rest ih =>
    by_cases h : p.1 = k
    · simp [dinsert, dget?, h]
    · simp [dinsert, dget?, h, ih]

theorem dget?_dinsert_ne {α : Type} {k k' : String} (h : k' ≠ k) (v : α)
    (l : List (String × α)) : dget? k (dinsert k' v l) = dget? k l := by
  induction l with
  | nil => simp [dinsert, dget?, h]
  | cons p rest ih =>
    by_cases hp : p.1 = k'
    · simp [dinsert, dget?, hp, h]
    · by_cases hk : p.1 = k
      · simp [dinsert, dget?, hp, hk, Ne.symm h]
      · simp [dinsert, dget?, hp, hk, ih]

theorem dinsert_fresh {α : Type} {k : String} (v : α) {l : List (String × α)}
    (h : k ∉ keys l) : dinsert k v l = l ++ [(k, v)] := by
  induction l with
  | nil => simp [dinsert]
  | cons p rest ih =>
    simp only [keys, List.map_cons, List.mem_cons] at h
    push_neg at h
    have hp : p.1 ≠ k := fun hc => h.1 hc.symm
    simp [dinsert, hp, ih (by simpa [keys] using h.2)]

theorem dget?_map_keys {α : Type} (g : String → α) (k : String) :
    ∀ cols : List String,
      dget? k (cols.map (fun c => (c, g c))) = if k ∈ cols then some (g k) else none := by
  intro cols
  induction cols with
  | nil => simp [dget?]
  | cons c rest ih =>
    by_cases h : c = k
    · subst h
      simp [dget?]
    · simp [dget?, h, ih, Ne.symm h]

theorem dget_dinsert_ne {α : Type} {k k' : String} (h : k' ≠ k) (d v : α)
    (l : List (String × α)) : dget k d (dinsert k' v l) = dget k d l := by
  simp [dget, dget?_dinsert_ne h]

theorem dget_dinsert_self {α : Type} (k : String) (d v : α) (l : List (String × α)) :
    dget k d (dinsert k v l) = v := by
  simp [dget, dget?_dinsert_self]

theorem dget_map_keys_mem {α : Type} (g : String → α) (d : α) {k : String}
    {cols : List String} (h : k ∈ cols) :
    dget k d (cols.map (fun c => (c, g c))) = g k := by
  simp [dget, dget?_map_keys, h]

theorem dget?_map_keys_not_mem {α : Type} (g : String → α) {k : String}
    {cols : List String} (h : k ∉ cols) :
    dget? k (cols.map (fun c => (c, g c))) = none := by
  simp [dget?_map_keys, h]

theorem dget?_eq_none_of_not_mem_keys {α : Type} {k : String} :
    ∀ {l : List (String × α)}, k ∉ keys l → dget? k l = none := by
  intro l
  induction l with
  | nil => intro _; rfl
  | cons p rest ih =>
    intro h
    simp only [keys, List.map_cons, List.mem_cons, not_or] at h
    have hp : p.1 ≠ k := fun hc => h.1 hc.symm
    rw [show dget? k (p :: rest) = dget? k rest from by simp [dget?, hp]]
    exact ih (by simpa [keys] using h.2)

theorem keys_dinsert_mem {α : Type} {k : String} (v : α) :
    ∀ {l : List (String × α)}, k ∈ keys l → keys (dinsert k v l) = keys l := by
  intro l
  induction l with
  | nil => intro h; simp [keys] at h
  | cons p rest ih =>
    intro h
    by_cases hp : p.1 = k
    · simp [dinsert, hp, keys]
    · have h2 : k ∈ keys rest := by
        simp only [keys, List.map_cons, List.mem_cons] at h
        rcases h with h | h
        · exact absurd h.symm hp
        · exact h
      rw [show dinsert k v (p :: rest) = p :: dinsert k v rest from by simp [dinsert, hp]]
      show p.1 :: keys (dinsert k v rest) = p.1 :: keys rest
      rw [ih h2]

/-! ## Helper lemmas about the payments derived total -/

theorem lineContrib_step (total : ℚ) (line : AmountLine) :
    (match line.amount? with
     | none => total
     | some t =>
       if t = "" then total
       else
         match py_float (commaToDot t) with
         | some v => total + v
         | none => total) = total + lineContrib line := by
  rcases line with ⟨a⟩
  cases a with
  | none =>
    have h0 : lineContrib ⟨none⟩ = 0 := by decide
    simp [h0]
  | some t =>
    by_cases ht : t = ""
    · subst ht
      have h0 : lineContrib ⟨some ""⟩ = 0 := by decide
      simp [h0]
    · simp only [ht, if_neg]
      cases hp : py_float (commaToDot t) with
      | none => simp [lineContrib, ht, hp]
      | some v => simp [lineContrib, ht, hp]

theorem foldl_add_contrib :
    ∀ (xs : List AmountLine) (a : ℚ),
      xs.foldl
        (fun total line =>
          match line.amount? with
          | none => total
          | some t =>
            if t = "" then total
            else
              match py_float (commaToDot t) with
              | some v => total + v
              | none => total) a = a + (xs.map lineContrib).sum := by
  intro xs
  induction xs with
  | nil => simp
  | cons x rest ih =>
    intro a
    simp only [List.foldl_cons, List.map_cons, List.sum_cons]
    rw [lineContrib_step, ih, add_assoc]

theorem sum_payments_eq_specTotal (e : RawEntry) :
    sum_payments_from_lines (dget? "РасшифровкаПлатежа" e.2) = specTotal e := by
  cases h : dget? "РасшифровкаПлатежа" e.2 with
  | none => simp [sum_payments_from_lines, specTotal, payment_lines, h]
  | some ce =>
    simp only [sum_payments_from_lines, specTotal, payment_lines, h, Option.map_some,
      Option.getD_some]
    rw [foldl_add_contrib]
    simp

/-! ## Further helper lemmas -/

theorem keys_map_general {α β : Type} (f : β → String) (g : β → α) (l : List β) :
    keys (l.map (fun c => (f c, g c))) = l.map f := by
  simp [keys, List.map_map]

theorem keys_append {α : Type} (l₁ l₂ : List (String × α)) :
    keys (l₁ ++ l₂) = keys l₁ ++ keys l₂ := by
  simp [keys]

/-! ## Claims C2 and C3: payments normalization -/

/-- The header amount rule of the payments normalizer, as one equation. -/
theorem payments_header_rule (e : RawEntry) :
    dget "СуммаДокумента" "" (extract_payments_row e) =
      if dget "СуммаДокумента" "" e.1 = "" ∧ specTotal e ≠ 0 then
        formatFixed2 (specTotal e)
      else dget "СуммаДокумента" "" e.1 := by
  have hne : ("СуммаПлатежа_Итого" : String) ≠ "СуммаДокумента" := by decide
  have hmem : "СуммаДокумента" ∈ COLUMNS_payments.filter
      (fun k => k ≠ "СуммаПлатежа_Итого") := by decide
  simp only [extract_payments_row, sum_payments_eq_specTotal]
  rw [dget_dinsert_ne hne]
  by_cases ht : specTotal e = 0 <;> by_cases hh : dget "СуммаДокумента" "" e.1 = ""
  · rw [if_neg (fun hc => hc.1 ht), if_neg (fun hc => hc.2 ht)]
    exact dget_map_keys_mem _ _ hmem
  · rw [if_neg (fun hc => hc.1 ht), if_neg (fun hc => hc.2 ht)]
    exact dget_map_keys_mem _ _ hmem
  · rw [if_pos ⟨ht, hh⟩, if_pos ⟨hh, ht⟩]
    exact dget_dinsert_self _ _ _ _
  · rw [if_neg (fun hc => hh hc.2), if_neg (fun hc => hh hc.1)]
    exact dget_map_keys_mem _ _ hmem

/-- The derived total rule of the payments normalizer, as one equation. -/
theorem payments_total_rule (e : RawEntry) :
    dget "СуммаПлатежа_Итого" "" (extract_payments_row e) = formatFixed2 (specTotal e) := by
  simp only [extract_payments_row, sum_payments_eq_specTotal]
  exact dget_dinsert_self _ _ _ _

/-- Every copied payments column other than the header amount and the derived
total is projected from the raw scalars with `""` as default. -/
theorem payments_copied_rule (e : RawEntry) (k : String) (hk : k ∈ COLUMNS_payments)
    (h1 : k ≠ "СуммаДокумента") (h2 : k ≠ "СуммаПлатежа_Итого") :
    dget k "" (extract_payments_row e) = dget k "" e.1 := by
  have hmem : k ∈ COLUMNS_payments.filter (fun c => c ≠ "СуммаПлатежа_Итого") :=
    List.mem_filter.mpr ⟨hk, by simpa using h2⟩
  simp only [extract_payments_row]
  rw [dget_dinsert_ne (Ne.symm h2)]
  split
  · rw [dget_dinsert_ne (Ne.symm h1)]
    exact dget_map_keys_mem _ _ hmem
  · exact dget_map_keys_mem _ _ hmem

/-- The worked example's line sum. -/
theorem sum_exampleLines : sum_payments_from_lines (some exampleLines) = (15.75 : ℚ) := by
  have h : sum_payments_from_lines (some exampleLines) =
      0 + ((10 : ℚ) + 50 / 10 ^ 2) + ((5 : ℚ) + 25 / 10 ^ 2) := rfl
  rw [h]; norm_num

/-- The worked example's specification-side total. -/
theorem specTotal_exampleEntry : specTotal exampleEntry = (15.75 : ℚ) := by
  have hd : dget? "РасшифровкаПлатежа" exampleEntry.2 = some exampleLines := by decide
  rw [← sum_payments_eq_specTotal exampleEntry, hd, sum_exampleLines]

/-- Rendering of the worked example's total. -/
theorem formatFixed2_fifteen : formatFixed2 (15.75 : ℚ) = "15.75" := by
  have h : round ((15.75 : ℚ) * 100) = (1575 : ℤ) := by norm_num [round_eq]
  simp only [formatFixed2, h]
  decide

/-- C2: for every payments raw entry, the header amount column СуммаДокумента
of the normalized row is overwritten with the formatted derived line-item
total exactly when the header amount scalar is empty or absent (so that its
defaulted value is `""`) and the derived total is nonzero; otherwise the
header amount scalar is copied through unchanged. -/
theorem c2_payments_header_backfill (e : RawEntry) :
    dget "СуммаДокумента" "" (extract_payments_row e) =
      if dget "СуммаДокумента" "" e.1 = "" ∧ specTotal e ≠ 0 then
        formatFixed2 (specTotal e)
      else dget "СуммаДокумента" "" e.1 :=
  payments_header_rule e

/-- C3: for every payments entry the derived total column СуммаПлатежа_Итого
is the 2-fractional-digit rendering of the sum of the per-line contributions,
where a line contributes its amount text with "," replaced by "." parsed as a
number and unparseable, absent or empty amounts contribute 0 without failing;
in particular the line amounts "10,50", "5.25", "abc" sum to 15.75 and the
derived column shows "15.75". -/
theorem c3_payments_derived_total :
    (∀ e : RawEntry,
      dget "СуммаПлатежа_Итого" "" (extract_payments_row e) = formatFixed2 (specTotal e))
    ∧ sum_payments_from_lines (some exampleLines) = (15.75 : ℚ)
    ∧ lineContrib ⟨some "abc"⟩ = 0
    ∧ dget "СуммаПлатежа_Итого" "" (extract_payments_row exampleEntry) = "15.75" := by
  refine ⟨payments_total_rule, sum_exampleLines, by decide, ?_⟩
  rw [payments_total_rule exampleEntry, specTotal_exampleEntry]
  exact formatFixed2_fifteen

/-! ## Claim C7: column fidelity of the normalizers -/

/-- Every payments row carries exactly the declared payments columns as its
keys, in declared order. -/
theorem payments_row_keys (e : RawEntry) :
    keys (extract_payments_row e) = COLUMNS_payments := by
  have hbase : keys ((COLUMNS_payments.filter (fun k => k ≠ "СуммаПлатежа_Итого")).map
      (fun k => (k, dget k "" e.1))) =
      COLUMNS_payments.filter (fun k => k ≠ "СуммаПлатежа_Итого") :=
    keys_map_general _ _ _
  have hmem : "СуммаДокумента" ∈ COLUMNS_payments.filter
      (fun k => k ≠ "СуммаПлатежа_Итого") := by decide
  have hfresh : "СуммаПлатежа_Итого" ∉ COLUMNS_payments.filter
      (fun k => k ≠ "СуммаПлатежа_Итого") := by decide
  simp only [extract_payments_row]
  have hkeys2 : keys (if sum_payments_from_lines (dget? "РасшифровкаПлатежа" e.2) ≠ 0 ∧
      dget "СуммаДокумента" "" e.1 = "" then
        dinsert "СуммаДокумента"
          (formatFixed2 (sum_payments_from_lines (dget? "РасшифровкаПлатежа" e.2)))
          ((COLUMNS_payments.filter (fun k => k ≠ "СуммаПлатежа_Итого")).map
            (fun k => (k, dget k "" e.1)))
      else
        (COLUMNS_payments.filter (fun k => k ≠ "СуммаПлатежа_Итого")).map
          (fun k => (k, dget k "" e.1))) =
      COLUMNS_payments.filter (fun k => k ≠ "СуммаПлатежа_Итого") := by
    split
    · rw [keys_dinsert_mem _ (by rw [hbase]; exact hmem)]
      exact hbase
    · exact hbase
  rw [dinsert_fresh _ (by rw [hkeys2]; exact hfresh), keys_append, hkeys2]
  simp only [keys, List.map_cons, List.map_nil]
  decide

/-- C7 counterexample: for the payments entity a declared column absent from
the raw entry does not default to the empty string — on an entry with an
absent header amount and lines summing to 15.75, the declared column
СуммаДокумента is backfilled to "15.75" in the normalized row. -/
theorem c7_payments_default_counterexample :
    "СуммаДокумента" ∈ COLUMNS_payments
    ∧ dget? "СуммаДокумента" exampleEntry.1 = none
    ∧ dget "СуммаДокумента" "" (extract_payments_row exampleEntry) = "15.75"
    ∧ ("15.75" : String) ≠ "" := by
  refine ⟨by decide, by decide, ?_, by decide⟩
  rw [payments_header_rule exampleEntry, specTotal_exampleEntry,
    if_pos ⟨rfl, by norm_num⟩]
  exact formatFixed2_fifteen

/-- C7 amended: for every entity and every sequence of raw entries, each
normalized row carries exactly the entity's declared columns in declared
order, feed properties outside the declared list are dropped, and the output
row sequence preserves the input entry order; a declared column absent from
the raw entry maps to the empty string for clients, sales and returns, and
for every copied payments column except the two special ones: the payments
header amount СуммаДокумента follows the backfill rule (overwritten with the
formatted derived total exactly when empty or absent with a nonzero derived
total), and the derived column СуммаПлатежа_Итого always carries the
formatted derived total. -/
theorem c7_column_fidelity_amended :
    (∀ raws : List RawEntry, (extract_clients raws).length = raws.length)
    ∧ (∀ raws : List RawEntry, ∀ row ∈ extract_clients raws, keys row = COLUMNS_clients)
    ∧ (∀ (raws : List RawEntry) (i : Nat),
        (extract_clients raws)[i]? =
          (raws[i]?).map (fun e => COLUMNS_clients.map (fun k => (k, dget k "" e.1))))
    ∧ (∀ (e : RawEntry) (k : String), k ∈ COLUMNS_clients →
        dget? k (COLUMNS_clients.map (fun c => (c, dget c "" e.1))) =
          some (dget k "" e.1))
    ∧ (∀ (e : RawEntry) (k : String), k ∉ COLUMNS_clients →
        dget? k (COLUMNS_clients.map (fun c => (c, dget c "" e.1))) = none)
    ∧ (∀ (l : List (String × String)) (k : String), dget? k l = none → dget k "" l = "")
    ∧ (∀ raws : List RawEntry, ∀ row ∈ extract_sales raws, keys row = COLUMNS_sales)
    ∧ (∀ raws : List RawEntry, ∀ row ∈ extract_returns raws, keys row = COLUMNS_returns)
    ∧ (∀ e : RawEntry, keys (extract_payments_row e) = COLUMNS_payments)
    ∧ (∀ (raws : List RawEntry) (i : Nat),
        (extract_sales raws)[i]? =
          (raws[i]?).map (fun e => COLUMNS_sales.map (fun k => (k, dget k "" e.1))))
    ∧ (∀ (e : RawEntry) (k : String), k ∈ COLUMNS_sales →
        dget? k (COLUMNS_sales.map (fun c => (c, dget c "" e.1))) =
          some (dget k "" e.1))
    ∧ (∀ (e : RawEntry) (k : String), k ∉ COLUMNS_sales →
        dget? k (COLUMNS_sales.map (fun c => (c, dget c "" e.1))) = none)
    ∧ (∀ (raws : List RawEntry) (i : Nat),
        (extract_returns raws)[i]? =
          (raws[i]?).map (fun e => COLUMNS_returns.map (fun k => (k, dget k "" e.1))))
    ∧ (∀ (e : RawEntry) (k : String), k ∈ COLUMNS_returns →
        dget? k (COLUMNS_returns.map (fun c => (c, dget c "" e.1))) =
          some (dget k "" e.1))
    ∧ (∀ (e : RawEntry) (k : String), k ∉ COLUMNS_returns →
        dget? k (COLUMNS_returns.map (fun c => (c, dget c "" e.1))) = none)
    ∧ (∀ (raws : List RawEntry) (i : Nat),
        (extract_payments raws)[i]? = (raws[i]?).map extract_payments_row)
    ∧ (∀ (e : RawEntry) (k : String), k ∈ COLUMNS_payments → k ≠ "СуммаДокумента" →
        k ≠ "СуммаПлатежа_Итого" →
        dget k "" (extract_payments_row e) = dget k "" e.1)
    ∧ (∀ e : RawEntry, dget "СуммаДокумента" "" (extract_payments_row e) =
        if dget "СуммаДокумента" "" e.1 = "" ∧ specTotal e ≠ 0 then
          formatFixed2 (specTotal e)
        else dget "СуммаДокумента" "" e.1)
    ∧ (∀ e : RawEntry, dget "СуммаПлатежа_Итого" "" (extract_payments_row e) =
        formatFixed2 (specTotal e))
    ∧ (∀ (e : RawEntry) (k : String), k ∉ COLUMNS_payments →
        dget? k (extract_payments_row e) = none) := by
  refine ⟨?_, ?_, ?_, ?_, ?_, ?_, ?_, ?_, payments_row_keys, ?_, ?_, ?_, ?_, ?_, ?_, ?_,
    payments_copied_rule, payments_header_rule, payments_total_rule, ?_⟩
  · intro raws; simp [extract_clients]
  · intro raws row hrow
    simp only [extract_clients, List.mem_map] at hrow
    obtain ⟨e, _, rfl⟩ := hrow
    exact keys_map_general _ _ _
  · intro raws i; simp [extract_clients]
  · intro e k hk
    rw [dget?_map_keys]
    simp [hk]
  · intro e k hk
    exact dget?_map_keys_not_mem _ hk
  · intro l k h
    simp [dget, h]
  · intro raws row hrow
    simp only [extract_sales, List.mem_map] at hrow
    obtain ⟨e, _, rfl⟩ := hrow
    exact keys_map_general _ _ _
  · intro raws row hrow
    simp only [extract_returns, List.mem_map] at hrow
    obtain ⟨e, _, rfl⟩ := hrow
    exact keys_map_general _ _ _
  · intro raws i; simp [extract_sales]
  · intro e k hk
    rw [dget?_map_keys]
    simp [hk]
  · intro e k hk
    exact dget?_map_keys_not_mem _ hk
  · intro raws i; simp [extract_returns]
  · intro e k hk
    rw [dget?_map_keys]
    simp [hk]
  · intro e k hk
    exact dget?_map_keys_not_mem _ hk
  · intro raws i; simp [extract_payments]
  · intro e k hk
    exact dget?_eq_none_of_not_mem_keys (by rw [payments_row_keys e]; exact hk)

theorem c7_column_fidelity_amended_witness :
    dget? "Ref_Key"
      (COLUMNS_clients.map (fun c => (c, dget c "" ([] : List (String × String))))) =
        some ""
    ∧ dget? "Unknown_Column"
        (COLUMNS_clients.map (fun c => (c, dget c "" ([] : List (String × String))))) =
          none
    ∧ dget "ВидОперации" "" (extract_payments_row exampleEntry) = ""
    ∧ dget? "Unknown_Column" (extract_payments_row exampleEntry) = none := by
  obtain ⟨-, -, -, h4, h5, -, -, -, -, -, -, -, -, -, -, -, h17, -, -, h20⟩ :=
    c7_column_fidelity_amended
  refine ⟨?_, ?_, ?_, ?_⟩
  · exact (h4 (([], []) : RawEntry) "Ref_Key" (by decide)).trans (by decide)
  · exact h5 (([], []) : RawEntry) "Unknown_Column" (by decide)
  · exact (h17 exampleEntry "ВидОперации" (by decide) (by decide) (by decide)).trans rfl
  · exact h20 exampleEntry "Unknown_Column" (by decide)

/-! ## Claim C8: parse_properties partitions property children -/

theorem pp_fold (children : List PropChild) :
    ∀ (f0 : List (String × String)) (c0 : List (String × PropChild)),
      (∀ c ∈ children, c.localname ∉ keys f0) →
      (∀ c ∈ children, c.localname ∉ keys c0) →
      (children.map PropChild.localname).Nodup →
      children.foldl
        (fun acc child =>
          if isColl child then (acc.1, dinsert child.localname child acc.2)
          else (dinsert child.localname (pytrim (child.text?.getD "")) acc.1, acc.2))
        (f0, c0) =
      (f0 ++ (children.filter (fun c => !isColl c)).map
          (fun c => (c.localname, pytrim (c.text?.getD ""))),
       c0 ++ (children.filter (fun c => isColl c)).map (fun c => (c.localname, c))) := by
  induction children with
  | nil => intro f0 c0 _ _ _; simp
  | cons c rest ih =>
    intro f0 c0 hf hc hnd
    simp only [List.map_cons, List.nodup_cons] at hnd
    have hcf : c.localname ∉ keys f0 := hf c (List.mem_cons_self c rest)
    have hcc : c.localname ∉ keys c0 := hc c (List.mem_cons_self c rest)
    by_cases hcol : isColl c = true
    · have hstep := ih f0 (c0 ++ [(c.localname, c)])
        (fun x hx => hf x (List.mem_cons_of_mem c hx))
        (fun x hx => by
          rw [keys_append]
          simp only [List.mem_append, keys, List.map_cons, List.map_nil, List.mem_singleton,
            not_or]
          refine ⟨hc x (List.mem_cons_of_mem c hx), fun hx2 => hnd.1 ?_⟩
          rw [← hx2]
          exact List.mem_map_of_mem PropChild.localname hx)
        hnd.2
      rw [List.foldl_cons, if_pos hcol, dinsert_fresh c hcc, hstep]
      simp [List.filter_cons, hcol, List.append_assoc]
    · have hstep := ih (f0 ++ [(c.localname, pytrim (c.text?.getD ""))]) c0
        (fun x hx => by
          rw [keys_append]
          simp only [List.mem_append, keys, List.map_cons, List.map_nil, List.mem_singleton,
            not_or]
          refine ⟨hf x (List.mem_cons_of_mem c hx), fun hx2 => hnd.1 ?_⟩
          rw [← hx2]
          exact List.mem_map_of_mem PropChild.localname hx)
        (fun x hx => hc x (List.mem_cons_of_mem c hx))
        hnd.2
      have hcol2 : isColl c = false := by simpa using hcol
      rw [List.foldl_cons, if_neg hcol, dinsert_fresh _ hcf, hstep]
      simp [List.filter_cons, hcol2, List.append_assoc]

/-- C8: when the property children of an entry carry distinct local names,
`parse_properties` partitions them: the collection map holds exactly the
children whose `m:type` attribute starts with "Collection(" (unparsed, keyed
by local name, in order), the scalar map holds exactly the other children
(text content trimmed, `""` for null text, keyed by local name, in order),
and no name occurs in both maps. -/
theorem c8_parse_properties_partition (children : List PropChild)
    (hnd : (children.map PropChild.localname).Nodup) :
    parse_properties (some children) =
      ((children.filter (fun c => !isColl c)).map
         (fun c => (c.localname, pytrim (c.text?.getD ""))),
       (children.filter (fun c => isColl c)).map (fun c => (c.localname, c)))
    ∧ ∀ name : String,
        ¬(name ∈ keys (parse_properties (some children)).1 ∧
          name ∈ keys (parse_properties (some children)).2) := by
  have heq := pp_fold children [] [] (by simp [keys]) (by simp [keys]) hnd
  have heq2 : parse_properties (some children) =
      ((children.filter (fun c => !isColl c)).map
         (fun c => (c.localname, pytrim (c.text?.getD ""))),
       (children.filter (fun c => isColl c)).map (fun c => (c.localname, c))) := by
    simpa [parse_properties] using heq
  refine ⟨heq2, ?_⟩
  rintro name ⟨h1, h2⟩
  rw [heq2] at h1 h2
  simp only [keys_map_general, List.mem_map] at h1 h2
  obtain ⟨c1, hc1, hn1⟩ := h1
  obtain ⟨c2, hc2, hn2⟩ := h2
  rw [List.mem_filter] at hc1 hc2
  have hinj := List.inj_on_of_nodup_map hnd
  have hceq : c1 = c2 := hinj hc1.1 hc2.1 (hn1.trans hn2.symm)
  rw [hceq] at hc1
  have hb1 := hc1.2
  have hb2 := hc2.2
  simp only [Bool.not_eq_true'] at hb1
  rw [hb1] at hb2
  exact Bool.false_ne_true hb2

theorem c8_parse_properties_partition_witness :
    parse_properties (some
      [⟨"Ref_Key", none, some " abc ", []⟩,
       ⟨"РасшифровкаПлатежа", some "Collection(StandardODATA.X)", none, []⟩]) =
      ([("Ref_Key", "abc")],
       [("РасшифровкаПлатежа",
         ⟨"РасшифровкаПлатежа", some "Collection(StandardODATA.X)", none, []⟩)]) := by
  have h := (c8_parse_properties_partition
    [⟨"Ref_Key", none, some " abc ", []⟩,
     ⟨"РасшифровкаПлатежа", some "Collection(StandardODATA.X)", none, []⟩]
    (by decide)).1
  rw [h]
  decide

/-! ## Claim C10: entries with no properties subtree -/

theorem c10_no_properties_counterexample :
    dget "СуммаПлатежа_Итого" "" (extract_payments_row (parse_properties none)) = "0.00"
    ∧ ¬(∀ p ∈ extract_payments_row (parse_properties none), p.2 = "") := by
  have hfz : formatFixed2 0 = "0.00" := by
    have h : round ((0 : ℚ) * 100) = (0 : ℤ) := by norm_num
    simp only [formatFixed2, h]
    decide
  have hrow : extract_payments_row (parse_properties none) =
      [("Ref_Key", ""), ("Number", ""), ("Date", ""), ("Posted", ""),
       ("Контрагент_Key", ""), ("ДоговорКонтрагента_Key", ""), ("СуммаДокумента", ""),
       ("ВалютаДокумента_Key", ""), ("Организация_Key", ""), ("ВидОперации", ""),
       ("СуммаПлатежа_Итого", formatFixed2 0)] := rfl
  constructor
  · rw [hrow, hfz]
    decide
  · intro hall
    have hm : ("СуммаПлатежа_Итого", formatFixed2 0) ∈
        extract_payments_row (parse_properties none) := by
      rw [hrow]
      simp
    have h2 := hall _ hm
    simp only at h2
    rw [hfz] at h2
    exact absurd h2 (by decide)

/-- C10 amended: an entry node without the `atom:content/m:properties`
subtree parses, without failing, to a pair of two empty maps, and such an
entry normalizes to a row whose copied columns are all the empty string; for
the payments entity the derived total column additionally carries "0.00"
(the formatted zero total), not the empty string. -/
theorem c10_no_properties_amended :
    parse_properties none = (([], []) : RawEntry)
    ∧ extract_clients [parse_properties none] = [COLUMNS_clients.map (fun k => (k, ""))]
    ∧ extract_sales [parse_properties none] = [COLUMNS_sales.map (fun k => (k, ""))]
    ∧ extract_returns [parse_properties none] = [COLUMNS_returns.map (fun k => (k, ""))]
    ∧ extract_payments [parse_properties none] =
        [(COLUMNS_payments.filter (fun k => k ≠ "СуммаПлатежа_Итого")).map
           (fun k => (k, "")) ++ [("СуммаПлатежа_Итого", "0.00")]] := by
  have hfz : formatFixed2 0 = "0.00" := by
    have h : round ((0 : ℚ) * 100) = (0 : ℤ) := by norm_num
    simp only [formatFixed2, h]
    decide
  have hrow : extract_payments_row (parse_properties none) =
      [("Ref_Key", ""), ("Number", ""), ("Date", ""), ("Posted", ""),
       ("Контрагент_Key", ""), ("ДоговорКонтрагента_Key", ""), ("СуммаДокумента", ""),
       ("ВалютаДокумента_Key", ""), ("Организация_Key", ""), ("ВидОперации", ""),
       ("СуммаПлатежа_Итого", formatFixed2 0)] := rfl
  refine ⟨rfl, by decide, by decide, by decide, ?_⟩
  show [extract_payments_row (parse_properties none)] = _
  rw [hrow, hfz]
  decide

/-! ## Claim C5: per-entity fault isolation and the completion marker -/

/-- C5: all four entities are attempted in order and each failure is reported
without removing the later entities' reports; the marker file is written if
and only if at least one entity succeeded; the run exits with failure exactly
when every entity failed, and exactly then no marker is written. -/
theorem c5_fault_isolation (rc rs rr rp : Except String (List (List (String × String))))
    (ts : String) :
    (mainRun (exports rc rs rr rp) ts).reports =
      [("clients.csv", exceptOk rc), ("sales.csv", exceptOk rs),
       ("returns.csv", exceptOk rr), ("payments.csv", exceptOk rp)]
    ∧ ((mainRun (exports rc rs rr rp) ts).marker.isSome ↔
        (exceptOk rc || exceptOk rs || exceptOk rr || exceptOk rp) = true)
    ∧ ((mainRun (exports rc rs rr rp) ts).exit_failure = true ↔
        exceptOk rc = false ∧ exceptOk rs = false ∧ exceptOk rr = false ∧
        exceptOk rp = false)
    ∧ ((mainRun (exports rc rs rr rp) ts).marker = none ↔
        (mainRun (exports rc rs rr rp) ts).exit_failure = true) := by
  cases rc <;> cases rs <;> cases rr <;> cases rp <;>
    simp [mainRun, mainStep, exports, exceptOk]

/-! ## Claims C1 and C6: the http_get retry loop -/

theorem http_go_exhausted (att : Nat → Attempt) :
    ∀ (l : List Nat) (lastExc : Option HttpError) (sleeps made : Nat),
      (∀ i ∈ l, isSuccess (att i) = false) →
      http_get_go att l lastExc sleeps made =
        ⟨.error ((foldExc att lastExc l).getD .unknown),
         sleeps + l.length, made + l.length⟩ := by
  intro l
  induction l with
  | nil => intro lastExc sleeps made _; simp [http_get_go, foldExc]
  | cons i rest ih =>
    intro lastExc sleeps made h
    have hi := h i (List.mem_cons_self i rest)
    have hrest := fun j hj => h j (List.mem_cons_of_mem i hj)
    cases hatt : att i with
    | raises id =>
      simp only [http_get_go, hatt]
      rw [ih _ _ _ hrest]
      simp only [foldExc, List.foldl_cons, hatt, attemptExc, List.length_cons,
        HttpResult.mk.injEq]
      exact ⟨by trivial, by omega, by omega⟩
    | response st =>
      have h400 : 400 ≤ st := by
        by_contra hlt
        rw [hatt] at hi
        simp [isSuccess] at hi
        omega
      by_cases h500 : 500 ≤ st
      · simp only [http_get_go, hatt, if_pos h500]
        rw [ih _ _ _ hrest]
        simp only [foldExc, List.foldl_cons, hatt, attemptExc, if_pos h500,
          List.length_cons, HttpResult.mk.injEq]
        exact ⟨by trivial, by omega, by omega⟩
      · simp only [http_get_go, hatt, if_neg h500, if_pos h400]
        rw [ih _ _ _ hrest]
        simp only [foldExc, List.foldl_cons, hatt, attemptExc, if_neg h500, if_pos h400,
          List.length_cons, HttpResult.mk.injEq]
        exact ⟨by trivial, by omega, by omega⟩

theorem c1_4xx_not_retried_counterexample :
    (http_get (fun _ => Attempt.response 404)).attemptsMade = 3
    ∧ (http_get (fun _ => Attempt.response 404)).sleeps = 3
    ∧ (http_get (fun _ => Attempt.response 404)).outcome =
        .error (.httpStatus 404)
    ∧ ¬((http_get (fun _ => Attempt.response 404)).attemptsMade = 1
        ∧ (http_get (fun _ => Attempt.response 404)).sleeps = 0) := by
  decide

/-- C1 amended: a 4xx response is not raised immediately — the `HTTPError`
from `raise_for_status` is caught by the broad `except` clause like a
transport failure, recorded as `last_exc`, slept on and retried; a page
request whose attempts all observe status `s` (4xx) performs all `RETRIES`
attempts with `RETRIES` backoff sleeps and only then raises the `HTTPError`
for `s`. -/
theorem c1_4xx_retried_amended (att : Nat → Attempt) (s : Nat)
    (h4 : 400 ≤ s) (h5 : s < 500) (hall : ∀ i, att i = .response s) :
    http_get att = ⟨.error (.httpStatus s), RETRIES, RETRIES⟩ := by
  have hns : ∀ i ∈ attemptList, isSuccess (att i) = false := by
    intro i _
    rw [hall i]
    simp [isSuccess]
    omega
  have hg := http_go_exhausted att attemptList none 0 0 hns
  have hae : ∀ i, attemptExc (att i) = some (.httpStatus s) := by
    intro i
    rw [hall i]
    simp only [attemptExc]
    rw [if_neg (by omega), if_pos h4]
  have hAL : attemptList = [1, 2, 3] := rfl
  have hfe : foldExc att none attemptList = some (.httpStatus s) := by
    rw [hAL]
    simp [foldExc, hae]
  rw [http_get, hg, hfe]
  rfl

theorem c1_4xx_retried_witness :
    http_get (fun _ => Attempt.response 404) =
      ⟨.error (.httpStatus 404), 3, 3⟩ := by
  have h := c1_4xx_retried_amended (fun _ => Attempt.response 404) 404
    (by omega) (by omega) (fun i => rfl)
  exact h.trans (by decide)

theorem c6_last_observed_counterexample :
    (attemptList.all (fun i => !isSuccess ((fun _ => Attempt.response 503) i))) = true
    ∧ lastObservedError (fun _ => Attempt.response 503) = some (.httpStatus 503)
    ∧ (http_get (fun _ => Attempt.response 503)).outcome = .error .unknown
    ∧ (http_get (fun _ => Attempt.response 503)).outcome ≠
        .error (HttpError.httpStatus 503) := by
  decide

/-- C6 amended: on exhaustion `http_get` raises the last exception recorded
by the `except` block — the last transport failure or 4xx `HTTPError` among
the attempts; an attempt observing a 5xx records nothing, and when no
exception was recorded at all (every attempt returned 5xx) the generic
`RuntimeError("Unknown HTTP error")` is raised instead of the observed
error. -/
theorem c6_exhaustion_error_amended (att : Nat → Attempt)
    (h : ∀ i, 1 ≤ i → i ≤ RETRIES → isSuccess (att i) = false) :
    http_get att = ⟨.error ((lastRecordedExc att).getD .unknown), RETRIES, RETRIES⟩ := by
  have hns : ∀ i ∈ attemptList, isSuccess (att i) = false := by
    intro i hi
    have hAL : attemptList = [1, 2, 3] := rfl
    rw [hAL] at hi
    simp only [List.mem_cons, List.not_mem_nil, or_false] at hi
    rcases hi with rfl | rfl | rfl
    · exact h 1 (by decide) (by decide)
    · exact h 2 (by decide) (by decide)
    · exact h 3 (by decide) (by decide)
  have hg := http_go_exhausted att attemptList none 0 0 hns
  rw [http_get, hg]
  rfl

theorem c6_exhaustion_error_witness :
    http_get (fun _ => Attempt.raises 7) = ⟨.error (.transport 7), 3, 3⟩ := by
  have h := c6_exhaustion_error_amended (fun _ => Attempt.raises 7) (fun i _ _ => rfl)
  exact h.trans (by decide)

/-! ## Claim C4: pagination -/

theorem fetch_all_aux_stop (server : Nat → List EntryNode) (fuel skip : Nat)
    (res : List RawEntry) (reqs : Nat) (h : (server skip).length < PAGE_SIZE) :
    fetch_all_aux server (fuel + 1) skip res reqs =
      some (res ++ (server skip).map parse_properties, reqs + 1) := by
  by_cases he : (server skip).isEmpty
  · have hnil : server skip = [] := by
      cases hm : server skip with
      | nil => rfl
      | cons a l => rw [hm] at he; simp at he
    simp [fetch_all_aux, he, hnil]
  · have he2 : (server skip).isEmpty = false := by simpa using he
    simp [fetch_all_aux, he2, h]

theorem fetch_all_aux_advance (server : Nat → List EntryNode) (fuel skip : Nat)
    (res : List RawEntry) (reqs : Nat) (h : PAGE_SIZE ≤ (server skip).length) :
    fetch_all_aux server (fuel + 1) skip res reqs =
      fetch_all_aux server fuel (skip + PAGE_SIZE)
        (res ++ (server skip).map parse_properties) (reqs + 1) := by
  have he : (server skip).isEmpty = false := by
    cases hm : server skip with
    | nil => rw [hm] at h; simp [PAGE_SIZE] at h
    | cons a l => rfl
  have hnl : ¬ (server skip).length < PAGE_SIZE := by omega
  simp [fetch_all_aux, he, hnl]

theorem fetch_all_aux_exact (all : List EntryNode) :
    ∀ (k skip : Nat) (res : List RawEntry) (reqs fuel : Nat),
      (all.drop skip).length = PAGE_SIZE * k → k < fuel →
      fetch_all_aux (mkServer all) fuel skip res reqs =
        some (res ++ (all.drop skip).map parse_properties, reqs + (k + 1)) := by
  intro k
  induction k with
  | zero =>
    intro skip res reqs fuel hlen hfuel
    obtain ⟨f, rfl⟩ : ∃ f, fuel = f + 1 := ⟨fuel - 1, by omega⟩
    have hnil : all.drop skip = [] := List.length_eq_zero.mp (by simpa using hlen)
    have hserver : mkServer all skip = [] := by simp [mkServer, hnil]
    have hlt : (mkServer all skip).length < PAGE_SIZE := by
      rw [hserver]
      simp [PAGE_SIZE]
    rw [fetch_all_aux_stop _ _ _ _ _ hlt, hserver, hnil]
  | succ k ih =>
    intro skip res reqs fuel hlen hfuel
    obtain ⟨f, rfl⟩ : ∃ f, fuel = f + 1 := ⟨fuel - 1, by omega⟩
    have hlen1000 : (mkServer all skip).length = PAGE_SIZE := by
      simp only [mkServer, List.length_take, List.length_drop]
      simp only [List.length_drop] at hlen
      simp only [PAGE_SIZE] at hlen ⊢
      omega
    have hdroplen : (all.drop (skip + PAGE_SIZE)).length = PAGE_SIZE * k := by
      simp only [List.length_drop] at hlen ⊢
      simp only [PAGE_SIZE] at hlen ⊢
      omega
    have hstep := ih (skip + PAGE_SIZE) (res ++ (mkServer all skip).map parse_properties)
      (reqs + 1) f hdroplen (by omega)
    rw [fetch_all_aux_advance _ _ _ _ _ (le_of_eq hlen1000.symm), hstep]
    have h1 : (all.drop skip).drop PAGE_SIZE = all.drop (skip + PAGE_SIZE) := by
      rw [List.drop_drop]
    have hsplit : mkServer all skip ++ all.drop (skip + PAGE_SIZE) = all.drop skip := by
      rw [mkServer, ← h1, List.take_append_drop]
    rw [← hsplit]
    simp only [List.map_append, List.append_assoc, Option.some.injEq, Prod.mk.injEq]
    exact ⟨by trivial, by omega⟩

/-- C4: `fetch_all` starts at offset 0; a page holding PAGE_SIZE entries or
more advances the offset by exactly PAGE_SIZE and continues, while a page
holding fewer than PAGE_SIZE entries (an empty one included) appends its
parsed entries and stops; consequently, a remote collection of exactly
`PAGE_SIZE * k` entries served slice-wise causes exactly `k + 1` page
requests, the last page is empty, and the result is all entries, parsed, in
page-then-within-page order. -/
theorem c4_fetch_all_pagination :
    (∀ (server : Nat → List EntryNode) (fuel : Nat),
      fetch_all server fuel = fetch_all_aux server fuel 0 [] 0)
    ∧ (∀ (server : Nat → List EntryNode) (fuel skip : Nat) (res : List RawEntry)
        (reqs : Nat), (server skip).length < PAGE_SIZE →
        fetch_all_aux server (fuel + 1) skip res reqs =
          some (res ++ (server skip).map parse_properties, reqs + 1))
    ∧ (∀ (server : Nat → List EntryNode) (fuel skip : Nat) (res : List RawEntry)
        (reqs : Nat), PAGE_SIZE ≤ (server skip).length →
        fetch_all_aux server (fuel + 1) skip res reqs =
          fetch_all_aux server fuel (skip + PAGE_SIZE)
            (res ++ (server skip).map parse_properties) (reqs + 1))
    ∧ (∀ (all : List EntryNode) (k fuel : Nat),
        all.length = PAGE_SIZE * k → k < fuel →
        fetch_all (mkServer all) fuel = some (all.map parse_properties, k + 1)
        ∧ mkServer all (PAGE_SIZE * k) = []) := by
  refine ⟨fun _ _ => rfl, fetch_all_aux_stop, fetch_all_aux_advance, ?_⟩
  intro all k fuel hlen hfuel
  constructor
  · have h := fetch_all_aux_exact all k 0 [] 0 fuel (by simpa using hlen) hfuel
    simpa [fetch_all] using h
  · have h0 : (all.drop (PAGE_SIZE * k)).length = 0 := by
      rw [List.length_drop, hlen]
      omega
    have hdn : all.drop (PAGE_SIZE * k) = [] := List.length_eq_zero.mp h0
    simp [mkServer, hdn]

theorem c4_fetch_all_pagination_witness :
    fetch_all_aux (fun _ => ([] : List EntryNode)) 1 0 [] 0 = some ([], 1)
    ∧ fetch_all (mkServer []) 1 = some ([], 1)
    ∧ mkServer [] (PAGE_SIZE * 0) = [] := by
  refine ⟨?_, ?_, ?_⟩
  · have h := c4_fetch_all_pagination.2.1 (fun _ => ([] : List EntryNode)) 0 0 [] 0
      (by simp [PAGE_SIZE])
    simpa using h
  · have h := (c4_fetch_all_pagination.2.2.2 [] 0 1 (by simp) (by omega)).1
    simpa using h
  · exact (c4_fetch_all_pagination.2.2.2 [] 0 1 (by simp) (by omega)).2

/-! ## Claim C9: marker timestamp -/

theorem digitChar_isDigit (n : Nat) : (digitChar n).isDigit = true := by
  have h10 : n % 10 < 10 := Nat.mod_lt _ (by omega)
  unfold digitChar
  set k := n % 10 with hk
  interval_cases k <;> decide

theorem civilFromDays_bounds (days : Nat) :
    1 ≤ (civilFromDays days).2.2 ∧ (civilFromDays days).2.2 ≤ 31 ∧
    1 ≤ (civilFromDays days).2.1 ∧ (civilFromDays days).2.1 ≤ 12 := by
  simp only [civilFromDays]
  split <;> omega

theorem marker_pattern_of_parts (a b y h n : Nat) (hy : y < 10000) :
    marker_pattern_ok (pad2 a ++ "." ++ pad2 b ++ "." ++ yearString y ++ " " ++
      pad2 h ++ ":" ++ pad2 n) = true := by
  rw [yearString, if_pos hy]
  show marker_pattern_ok (String.mk [digitChar (a / 10), digitChar a, '.',
    digitChar (b / 10), digitChar b, '.', digitChar (y / 1000), digitChar (y / 100),
    digitChar (y / 10), digitChar y, ' ', digitChar (h / 10), digitChar h, ':',
    digitChar (n / 10), digitChar n]) = true
  simp [marker_pattern_ok, String.toList, digitChar_isDigit]

/-- C9: the marker timestamp string renders the current UTC instant shifted
by the fixed +5 hour offset — day, month, year, hour, minute are the civil
fields of `t + 5*60` minutes — with zero-padded day and month, a four-digit
year, a zero-padded 24-hour clock and no seconds, and it matches the
`DD.MM.YYYY HH:MM` pattern; the rendered fields lie in calendar and clock
range, so the two-digit renderings are faithful. -/
theorem c9_marker_timestamp (t : Nat)
    (hy : (civilFromDays ((t + 5 * 60) / 1440)).1 < 10000) :
    almaty_now_str t =
      pad2 (civilFromDays ((t + 5 * 60) / 1440)).2.2 ++ "." ++
      pad2 (civilFromDays ((t + 5 * 60) / 1440)).2.1 ++ "." ++
      yearString (civilFromDays ((t + 5 * 60) / 1440)).1 ++ " " ++
      pad2 ((t + 5 * 60) / 60 % 24) ++ ":" ++ pad2 ((t + 5 * 60) % 60)
    ∧ marker_pattern_ok (almaty_now_str t) = true
    ∧ 1 ≤ (civilFromDays ((t + 5 * 60) / 1440)).2.2
    ∧ (civilFromDays ((t + 5 * 60) / 1440)).2.2 ≤ 31
    ∧ 1 ≤ (civilFromDays ((t + 5 * 60) / 1440)).2.1
    ∧ (civilFromDays ((t + 5 * 60) / 1440)).2.1 ≤ 12
    ∧ (t + 5 * 60) / 60 % 24 < 24
    ∧ (t + 5 * 60) % 60 < 60 := by
  have hb := civilFromDays_bounds ((t + 5 * 60) / 1440)
  refine ⟨rfl, ?_, hb.1, hb.2.1, hb.2.2.1, hb.2.2.2, by omega, by omega⟩
  exact marker_pattern_of_parts _ _ _ _ _ hy

theorem c9_marker_timestamp_witness :
    (civilFromDays ((0 + 5 * 60) / 1440)).1 < 10000
    ∧ almaty_now_str 0 = "01.01.1970 05:00"
    ∧ marker_pattern_ok (almaty_now_str 0) = true := by
  refine ⟨by decide, by decide, ?_⟩
  exact (c9_marker_timestamp 0 (by decide)).2.1

end DebtCalc
